import Mathlib

/-!
# Verification of the General_Health_Awareness bot (src/app.py)

A shallow embedding of the pure logic of `src/app.py`: the text truncator,
the WHO fact-sheet section extractors, the slug resolver, the polio
vaccination-schedule builder, the per-user memory store (in-process
fallback backend), the language-whitelist normalization performed by the
two webhook handlers, and the structured webhook's bad-request guard.

Python strings are modelled as Lean `String`s, with Python's `str.strip`,
`str.lower`, `str.capitalize`, `str.rfind` and slicing re-implemented over
the underlying `List Char` (one `Char` per Unicode code point, matching
Python's per-code-point `len` and indexing).  Network fetches and the
language detector are modelled as explicit parameters carrying the value
the call would produce (`Option`/`Except` for fallible calls).
-/

namespace HealthBot

/-! ## Python string primitives -/

/-- Python `str.strip()`: drop whitespace from both ends.
(`Char.isWhitespace` covers space, tab, CR, LF — the whitespace that
occurs in the scraped text this program handles.) -/
def pyStrip (s : String) : String :=
  String.mk (((s.data.dropWhile Char.isWhitespace).reverse.dropWhile Char.isWhitespace).reverse)

/-- Python `str.lower()` (ASCII case folding, which is what the disease
names and section headings this program compares consist of). -/
def pyLower (s : String) : String :=
  String.mk (s.data.map Char.toLower)

/-- Python `str.capitalize()`: first code point upper-cased, the rest
lower-cased. -/
def pyCapitalize (s : String) : String :=
  match s.data with
  | [] => ""
  | c :: cs => String.mk (c.toUpper :: cs.map Char.toLower)

/-- Python `needle in haystack` on char lists: `kw` occurs contiguously
inside `s`. -/
def charsContain (s kw : List Char) : Bool :=
  match s with
  | [] => kw.isEmpty
  | _ :: t => kw.isPrefixOf s || charsContain t kw

/-- Python `kw in s` for strings. -/
def pyContains (s kw : String) : Bool :=
  charsContain s.data kw.data

/-- Python `str.rfind(c)`: index of the last occurrence of the character
`c`, `none` when absent (Python returns `-1`). -/
def rfindChar : List Char → Char → Option Nat
  | [], _ => none
  | a :: rest, c =>
    match rfindChar rest c with
    | some i => some (i + 1)
    | none => if a = c then some 0 else none

/-- Python `l[-n:]`: the last `min n (length l)` elements. -/
def pyLastSlice (n : Nat) (l : List α) : List α :=
  l.drop (l.length - n)

/-! ## Text truncator (`truncate_response`, app.py:99-118) -/

/-- Function `truncate_response(text, limit)` from app.py:99-118.  Python's
`int(limit * 0.3)` threshold is modelled as `3 * limit / 10` (floor);
the two agree at every limit the program uses (500 at every call site,
and 10 in the spec's worked examples). -/
def truncate_response (text : String) (limit : Nat) : String :=
  if text.length ≤ limit then text
  else
    match rfindChar (text.data.take limit) '.' with
    | some last_dot => String.mk (text.data.take (last_dot + 1))
    | none =>
      match rfindChar (text.data.take limit) ' ' with
      | some last_space =>
        if last_space > 3 * limit / 10 then
          String.mk ((text.data.take limit).take last_space) ++ "..."
        else String.mk (text.data.take limit)
      | none => String.mk (text.data.take limit)

/-! ## Facts about `rfindChar` -/

theorem rfindChar_lt_length {cs : List Char} {c : Char} {i : Nat}
    (h : rfindChar cs c = some i) : i < cs.length := by
  induction cs generalizing i with
  | nil => simp [rfindChar] at h
  | cons a rest ih =>
    simp only [rfindChar] at h
    cases hr : rfindChar rest c with
    | some j =>
      rw [hr] at h
      cases h
      exact Nat.succ_lt_succ (ih hr)
    | none =>
      rw [hr] at h
      by_cases ha : a = c
      · simp [ha] at h
        subst h
        simp
      · simp [ha] at h

theorem rfindChar_get {cs : List Char} {c : Char} {i : Nat}
    (h : rfindChar cs c = some i) : cs[i]? = some c := by
  induction cs generalizing i with
  | nil => simp [rfindChar] at h
  | cons a rest ih =>
    simp only [rfindChar] at h
    cases hr : rfindChar rest c with
    | some j =>
      rw [hr] at h
      cases h
      simpa using ih hr
    | none =>
      rw [hr] at h
      by_cases ha : a = c
      · simp [ha] at h
        subst h
        simp [ha]
      · simp [ha] at h

theorem rfindChar_isSome_of_mem {cs : List Char} {c : Char}
    (h : c ∈ cs) : (rfindChar cs c).isSome := by
  induction cs with
  | nil => simp at h
  | cons a rest ih =>
    simp only [rfindChar]
    cases hr : rfindChar rest c with
    | some j => simp
    | none =>
      rcases List.mem_cons.mp h with rfl | hmem
      · simp
      · have := ih hmem
        rw [hr] at this
        simp at this

theorem data_mk (l : List Char) : (String.mk l).data = l := rfl

theorem length_mk (l : List Char) : (String.mk l).length = l.length := rfl

theorem length_eq_data (s : String) : s.length = s.data.length := rfl

/-- C2: when the text is longer than the limit and the limit-prefix
contains a period (witnessed by `rfind` returning its last index `i`),
`truncate_response` returns the original text up to and including that
period: the result is `text[:i+1]`, ends with the period, and is never
longer than the limit. -/
theorem truncate_sentence_boundary (text : String) (limit i : Nat)
    (hlen : limit < text.length)
    (hdot : rfindChar (text.data.take limit) '.' = some i) :
    truncate_response text limit = String.mk (text.data.take (i + 1)) ∧
    (truncate_response text limit).data.getLast? = some '.' ∧
    (truncate_response text limit).length ≤ limit := by
  have hi : i < (text.data.take limit).length := rfindChar_lt_length hdot
  have hilim : i < limit := lt_of_lt_of_le hi (by simp [List.length_take])
  have hdatalen : limit < text.data.length := hlen
  have heq : truncate_response text limit = String.mk (text.data.take (i + 1)) := by
    rw [truncate_response, if_neg (by omega)]
    simp only [hdot]
  refine ⟨heq, ?_, ?_⟩
  · rw [heq, data_mk]
    have hget : text.data[i]? = some '.' := by
      have := rfindChar_get hdot
      rwa [List.getElem?_take, if_pos hilim] at this
    have hlen1 : (text.data.take (i + 1)).length = i + 1 := by
      simp [List.length_take]
      omega
    rw [List.getLast?_eq_getElem?, hlen1]
    simpa [List.getElem?_take] using hget
  · rw [heq, length_mk]
    simp [List.length_take]
    omega

/-- Witness for C2: the spec's own example, limit 10 on
"Hello. World." yields "Hello.". -/
theorem truncate_sentence_boundary_check :
    truncate_response "Hello. World." 10 = "Hello." := by
  have h := truncate_sentence_boundary "Hello. World." 10 5 (by decide) (by decide)
  exact h.1.trans (by decide)

/-- C3 (amended general part): text longer than the limit, no period in
the limit-prefix, and the last space of that prefix past `30%` of the
limit: the result is the prefix up to that space with `"..."` appended,
so it ends with `"..."` and has length at most `limit + 3`. -/
theorem truncate_word_boundary (text : String) (limit j : Nat)
    (hlen : limit < text.length)
    (hdot : rfindChar (text.data.take limit) '.' = none)
    (hsp : rfindChar (text.data.take limit) ' ' = some j)
    (hj : 3 * limit / 10 < j) :
    (truncate_response text limit).data
        = (text.data.take limit).take j ++ "...".data ∧
    "...".data <:+ (truncate_response text limit).data ∧
    (truncate_response text limit).length ≤ limit + 3 := by
  have hjlt : j < (text.data.take limit).length := rfindChar_lt_length hsp
  have heq : (truncate_response text limit).data
      = (text.data.take limit).take j ++ "...".data := by
    rw [truncate_response, if_neg (by omega)]
    simp only [hdot, hsp, if_pos hj]
    simp [String.data_append]
  refine ⟨heq, ?_, ?_⟩
  · rw [heq]
    exact List.suffix_append _ _
  · rw [length_eq_data, heq]
    simp [List.length_take]

/-- Witness for C3's amended example: with nine `a`s (so that the
limit-10 prefix actually contains a space), the result is
"aaaaaaaaa...". -/
theorem truncate_word_boundary_check :
    (truncate_response "aaaaaaaaa bbbbb" 10).data = "aaaaaaaaa...".data := by
  have h := truncate_word_boundary "aaaaaaaaa bbbbb" 10 9
    (by decide) (by decide) (by decide) (by decide)
  exact h.1.trans (by decide)

/-- Counterexample for C3 as stated: the claimed text has ten `a`s, so
its limit-10 prefix contains no space at all; the code takes the
hard-cut branch and returns the raw prefix "aaaaaaaaaa", not
"aaaaaaaaa...". -/
theorem truncate_word_example_false :
    truncate_response "aaaaaaaaaa bbbbb" 10 = "aaaaaaaaaa" ∧
    truncate_response "aaaaaaaaaa bbbbb" 10 ≠ "aaaaaaaaa..." := by
  constructor
  · decide
  · decide

/-- C10: for every text and positive limit, the output of
`truncate_response` is at most `limit + 2` characters: the unchanged,
sentence and hard-cut branches return at most `limit` characters, and
the word-boundary branch appends three dots to a prefix of length at
most `limit - 1`. -/
theorem truncate_length_le (text : String) (limit : Nat)
    (hpos : 0 < limit) :
    (truncate_response text limit).length ≤ limit + 2 := by
  rw [truncate_response]
  split
  next h1 => omega
  next h1 =>
    split
    next i hdot =>
      have hi := rfindChar_lt_length hdot
      rw [length_mk]
      simp only [List.length_take] at hi ⊢
      omega
    next hdot =>
      split
      next j hsp =>
        have hj := rfindChar_lt_length hsp
        split
        next hgt =>
          rw [length_eq_data, String.data_append, data_mk]
          simp only [List.length_append, List.length_take, List.length_take] at hj ⊢
          have : "...".data.length = 3 := by decide
          rw [this]
          omega
        next hgt =>
          rw [length_mk]
          simp [List.length_take]
      next hsp =>
        rw [length_mk]
        simp [List.length_take]

/-- Witness for C10 at a concrete input: limit 4 on "ab cdef" takes the
word branch and returns "ab..." of length 5 ≤ 4 + 2. -/
theorem truncate_length_le_check :
    (truncate_response "ab cdef" 4).length ≤ 4 + 2 :=
  truncate_length_le "ab cdef" 4 (by decide)

/-! ## Fact-sheet page model and section extractors (app.py:124-250)

A parsed WHO fact-sheet page is modelled as the flat sequence of its
`h2`/`h3`/`p`/`ul` blocks in document order (`soup.find` scanning the
document and `find_next_siblings` walking the blocks after the found
heading coincide on this flat model).  `get_text(strip=True)` on a
block is modelled by storing the raw text and stripping at use sites. -/

inductive Block where
  | h2 : String → Block
  | h3 : String → Block
  | p : String → Block
  | ul : List String → Block
  | other : Block
deriving DecidableEq, Repr

def Block.isHeading : Block → Bool
  | .h2 _ => true
  | .h3 _ => true
  | _ => false

/-- The heading test `tag.name in ["h2","h3"] and kw in tag.get_text(strip=True).lower()`. -/
def headingMatches (kw : String) : Block → Bool
  | .h2 t => pyContains (pyLower (pyStrip t)) kw
  | .h3 t => pyContains (pyLower (pyStrip t)) kw
  | _ => false

/-- The `soup.find(...)` call for a heading predicate: returns the blocks after
the first matching block (the heading's following siblings). -/
def findHeading (pred : Block → Bool) : List Block → Option (List Block)
  | [] => none
  | b :: rest => if pred b then some rest else findHeading pred rest

/-- The `for sibling ... if sibling.name in ["h2","h3"]: break` loop of
`fetch_overview`: collect stripped non-empty `<p>` texts, stopping at
the first heading. -/
def collect_paragraphs : List Block → List String
  | [] => []
  | b :: rest =>
    if b.isHeading then []
    else
      match b with
      | .p t => if pyStrip t = "" then collect_paragraphs rest else pyStrip t :: collect_paragraphs rest
      | _ => collect_paragraphs rest

/-- The first loop of `fetch_symptoms`/`fetch_treatment`/
`fetch_prevention`: collect marker-decorated stripped non-empty `<li>`
texts from `<ul>` blocks, stopping at the first heading. -/
def collect_ul_points (marker : String) : List Block → List String
  | [] => []
  | b :: rest =>
    if b.isHeading then []
    else
      match b with
      | .ul items =>
        items.filterMap (fun t => if pyStrip t = "" then none else some (marker ++ " " ++ pyStrip t))
          ++ collect_ul_points marker rest
      | _ => collect_ul_points marker rest

/-- The fallback loop of those fetchers: marker-decorated stripped
non-empty `<p>` texts, stopping at the first heading. -/
def collect_p_points (marker : String) : List Block → List String
  | [] => []
  | b :: rest =>
    if b.isHeading then []
    else
      match b with
      | .p t => if pyStrip t = "" then collect_p_points marker rest else (marker ++ " " ++ pyStrip t) :: collect_p_points marker rest
      | _ => collect_p_points marker rest

/-- Function `fetch_overview` (app.py:124-148), with the fetched-and-parsed page
supplied as `doc`: paragraphs only, joined by single spaces, no marker. -/
def fetch_overview (doc : List Block) (disease_name : String) : Option String :=
  match findHeading (headingMatches "overview") doc with
  | none => none
  | some sibs =>
    let paragraphs := collect_paragraphs sibs
    if paragraphs.isEmpty then none
    else
      some (truncate_response
        ("Intent of " ++ pyCapitalize disease_name ++ ":\n\n" ++ pyStrip (String.intercalate " " paragraphs)) 500)

/-- Function `fetch_symptoms` (app.py:150-182): list items first, paragraph
fallback, marker "🔹". -/
def fetch_symptoms (doc : List Block) (disease_name : String) : Option String :=
  match findHeading (headingMatches "symptoms") doc with
  | none => none
  | some sibs =>
    let points := collect_ul_points "🔹" sibs
    let points2 := if points.isEmpty then collect_p_points "🔹" sibs else points
    if points2.isEmpty then none
    else
      some (truncate_response
        ("Intent of " ++ pyCapitalize disease_name ++ ":\n\n" ++ String.intercalate "\n\n" points2) 500)

/-- Function `fetch_treatment` (app.py:184-216): heading matches "treatment" or
"management", marker "💊". -/
def fetch_treatment (doc : List Block) (disease_name : String) : Option String :=
  match findHeading (fun b => headingMatches "treatment" b || headingMatches "management" b) doc with
  | none => none
  | some sibs =>
    let points := collect_ul_points "💊" sibs
    let points2 := if points.isEmpty then collect_p_points "💊" sibs else points
    if points2.isEmpty then none
    else
      some (truncate_response
        ("Intent of " ++ pyCapitalize disease_name ++ ":\n\n" ++ String.intercalate "\n\n" points2) 500)

/-- Function `fetch_prevention` (app.py:218-250): marker "🛡️". -/
def fetch_prevention (doc : List Block) (disease_name : String) : Option String :=
  match findHeading (headingMatches "prevention") doc with
  | none => none
  | some sibs =>
    let points := collect_ul_points "🛡️" sibs
    let points2 := if points.isEmpty then collect_p_points "🛡️" sibs else points
    if points2.isEmpty then none
    else
      some (truncate_response
        ("Intent of " ++ pyCapitalize disease_name ++ ":\n\n" ++ String.intercalate "\n\n" points2) 500)

/-! ### Spec-side extraction policy (for the refinement claim C1)

`spec_two_tier` follows the spec's words (§4.1): locate the matching
heading, take the span of blocks before the next heading, prefer
marker-decorated list items, fall back to marker-decorated paragraph
blocks, join with blank lines, prefix the header, truncate to 500. -/

/-- Modelled from the spec: the list-item tier over a span. -/
def span_list_points (marker : String) (span : List Block) : List String :=
  span.flatMap (fun b =>
    match b with
    | .ul items => items.filterMap (fun t => if pyStrip t = "" then none else some (marker ++ " " ++ pyStrip t))
    | _ => [])

/-- Modelled from the spec: the paragraph tier over a span. -/
def span_paragraph_points (marker : String) (span : List Block) : List String :=
  span.filterMap (fun b =>
    match b with
    | .p t => if pyStrip t = "" then none else some (marker ++ " " ++ pyStrip t)
    | _ => none)

/-- Modelled from the spec (§4.1): the claimed two-tier list-first
extraction policy. -/
def spec_two_tier (pred : Block → Bool) (marker : String) (doc : List Block) (name : String) : Option String :=
  match findHeading pred doc with
  | none => none
  | some sibs =>
    let span := sibs.takeWhile (fun b => !b.isHeading)
    let lis := span_list_points marker span
    let pts := if lis.isEmpty then span_paragraph_points marker span else lis
    if pts.isEmpty then none
    else
      some (truncate_response
        ("Intent of " ++ pyCapitalize name ++ ":\n\n" ++ String.intercalate "\n\n" pts) 500)

/-- Modelled from the spec (amended for overview): paragraph blocks
only, undecorated, space-joined. -/
def spec_paragraph_only (pred : Block → Bool) (doc : List Block) (name : String) : Option String :=
  match findHeading pred doc with
  | none => none
  | some sibs =>
    let span := sibs.takeWhile (fun b => !b.isHeading)
    let ps := span.filterMap (fun b =>
      match b with
      | .p t => if pyStrip t = "" then none else some (pyStrip t)
      | _ => none)
    if ps.isEmpty then none
    else
      some (truncate_response
        ("Intent of " ++ pyCapitalize name ++ ":\n\n" ++ pyStrip (String.intercalate " " ps)) 500)

theorem collect_ul_points_eq_span (marker : String) (l : List Block) :
    collect_ul_points marker l
      = span_list_points marker (l.takeWhile (fun b => !b.isHeading)) := by
  induction l with
  | nil => rfl
  | cons b rest ih =>
    by_cases hb : b.isHeading
    · simp [collect_ul_points, hb, List.takeWhile, span_list_points]
    · cases b with
      | ul items => simp [collect_ul_points, hb, List.takeWhile, span_list_points, ih]
      | h2 t => simp [Block.isHeading] at hb
      | h3 t => simp [Block.isHeading] at hb
      | p t => simpa [collect_ul_points, hb, List.takeWhile, span_list_points] using ih
      | other => simpa [collect_ul_points, hb, List.takeWhile, span_list_points] using ih

theorem collect_p_points_eq_span (marker : String) (l : List Block) :
    collect_p_points marker l
      = span_paragraph_points marker (l.takeWhile (fun b => !b.isHeading)) := by
  induction l with
  | nil => rfl
  | cons b rest ih =>
    by_cases hb : b.isHeading
    · simp [collect_p_points, hb, List.takeWhile, span_paragraph_points]
    · cases b with
      | p t =>
        by_cases ht : pyStrip t = "" <;>
          simp [collect_p_points, hb, ht, List.takeWhile, span_paragraph_points, ih]
      | h2 t => simp [Block.isHeading] at hb
      | h3 t => simp [Block.isHeading] at hb
      | ul items => simpa [collect_p_points, hb, List.takeWhile, span_paragraph_points] using ih
      | other => simpa [collect_p_points, hb, List.takeWhile, span_paragraph_points] using ih

theorem collect_paragraphs_eq_span (l : List Block) :
    collect_paragraphs l
      = (l.takeWhile (fun b => !b.isHeading)).filterMap (fun b =>
          match b with
          | .p t => if pyStrip t = "" then none else some (pyStrip t)
          | _ => none) := by
  induction l with
  | nil => rfl
  | cons b rest ih =>
    by_cases hb : b.isHeading
    · simp [collect_paragraphs, hb, List.takeWhile]
    · cases b with
      | p t =>
        by_cases ht : pyStrip t = "" <;>
          simp [collect_paragraphs, hb, ht, List.takeWhile, ih]
      | h2 t => simp [Block.isHeading] at hb
      | h3 t => simp [Block.isHeading] at hb
      | ul items => simpa [collect_paragraphs, hb, List.takeWhile] using ih
      | other => simpa [collect_paragraphs, hb, List.takeWhile] using ih

theorem fetch_symptoms_eq_spec (doc : List Block) (name : String) :
    fetch_symptoms doc name = spec_two_tier (headingMatches "symptoms") "🔹" doc name := by
  unfold fetch_symptoms spec_two_tier
  cases findHeading (headingMatches "symptoms") doc with
  | none => rfl
  | some sibs => simp only [collect_ul_points_eq_span, collect_p_points_eq_span]

theorem fetch_treatment_eq_spec (doc : List Block) (name : String) :
    fetch_treatment doc name
      = spec_two_tier (fun b => headingMatches "treatment" b || headingMatches "management" b) "💊" doc name := by
  unfold fetch_treatment spec_two_tier
  cases findHeading (fun b => headingMatches "treatment" b || headingMatches "management" b) doc with
  | none => rfl
  | some sibs => simp only [collect_ul_points_eq_span, collect_p_points_eq_span]

theorem fetch_prevention_eq_spec (doc : List Block) (name : String) :
    fetch_prevention doc name = spec_two_tier (headingMatches "prevention") "🛡️" doc name := by
  unfold fetch_prevention spec_two_tier
  cases findHeading (headingMatches "prevention") doc with
  | none => rfl
  | some sibs => simp only [collect_ul_points_eq_span, collect_p_points_eq_span]

theorem fetch_overview_eq_paragraph_only (doc : List Block) (name : String) :
    fetch_overview doc name = spec_paragraph_only (headingMatches "overview") doc name := by
  unfold fetch_overview spec_paragraph_only
  cases findHeading (headingMatches "overview") doc with
  | none => rfl
  | some sibs => simp only [collect_paragraphs_eq_span]

/-- C1 (amended): the two-tier list-first policy (list items decorated
with the section marker, paragraph fallback, blank-line joins) is
exactly what the symptoms, treatment and prevention extractors
implement; the overview extractor instead collects only paragraph
blocks, undecorated and space-joined, ignoring list content. -/
theorem section_extraction_policy (doc : List Block) (name : String) :
    fetch_symptoms doc name = spec_two_tier (headingMatches "symptoms") "🔹" doc name ∧
    fetch_treatment doc name
      = spec_two_tier (fun b => headingMatches "treatment" b || headingMatches "management" b) "💊" doc name ∧
    fetch_prevention doc name = spec_two_tier (headingMatches "prevention") "🛡️" doc name ∧
    fetch_overview doc name = spec_paragraph_only (headingMatches "overview") doc name :=
  ⟨fetch_symptoms_eq_spec doc name, fetch_treatment_eq_spec doc name,
    fetch_prevention_eq_spec doc name, fetch_overview_eq_paragraph_only doc name⟩

/-- Counterexample for C1 as stated: on a page whose "Overview" heading
is followed by a bulleted list (and no paragraphs), the overview
extractor returns nothing at all — it never collects list items — while
the symptoms extractor on the analogous page does collect them.  Under
the claimed two-tier policy the overview result would have been the
decorated list item. -/
theorem overview_not_list_first :
    fetch_overview [Block.h2 "Overview", Block.ul ["Drink water."], Block.h2 "More"] "malaria"
      = none ∧
    fetch_symptoms [Block.h2 "Symptoms", Block.ul ["Fever."], Block.h2 "More"] "malaria"
      = some "Intent of Malaria:\n\n🔹 Fever." := by
  constructor
  · decide
  · decide

/-! ## Slug resolver (`load_slugs` / `get_slug`, app.py:30-42)

The remote fetch-and-parse of `slugs.json` is supplied as an `Except`
value: `.ok m` is the parsed mapping, `.error e` any network or parse
failure.  `load_slugs` returning a mapping (rather than an exception
type) models the `except: return {}` — nothing is raised to the
caller. -/

/-- Python `dict.get` on an association list. -/
def dict_get (d : List (String × α)) (k : String) : Option α :=
  (d.find? (fun kv => kv.1 == k)).map (fun kv => kv.2)

/-- Function `load_slugs()` (app.py:30-37): the parsed mapping on success, the
empty mapping on any fetch/parse failure. -/
def load_slugs (fetch : Except String (List (String × String))) : List (String × String) :=
  match fetch with
  | .ok m => m
  | .error _ => []

/-- Function `get_slug(disease_param)` (app.py:39-42): fetch the table, strip and
lower-case the input (`None` modelled as the absent `Option`), exact
lookup. -/
def get_slug (fetch : Except String (List (String × String))) (disease_param : Option String) : Option String :=
  dict_get (load_slugs fetch) (pyLower (pyStrip (disease_param.getD "")))

/-! ## Polio schedule (`build_polio_schedule`, app.py:281-290)

Calendar dates are modelled as proleptic-Gregorian ordinals (days since
0001-01-01, as in Python's `date.toordinal`); `timedelta(weeks=k)` adds
`7 * k` days. -/

def isLeapYear (y : Nat) : Bool :=
  (y % 4 == 0 && y % 100 != 0) || y % 400 == 0

/-- Days in the months before month `m` (1-based) of year `y`. -/
def daysBeforeMonth (y m : Nat) : Nat :=
  [0, 31, 59, 90, 120, 151, 181, 212, 243, 273, 304, 334].getD (m - 1) 0
    + (if 3 ≤ m && isLeapYear y then 1 else 0)

/-- Python `date(y, m, d).toordinal()`. -/
def toOrdinal (y m d : Nat) : Nat :=
  365 * (y - 1) + (y - 1) / 4 - (y - 1) / 100 + (y - 1) / 400 + daysBeforeMonth y m + d

/-- Function `build_polio_schedule(birth_date)` (app.py:281-290). -/
def build_polio_schedule (birth_date : Nat) : List (String × Nat × String) :=
  [("At Birth (within 15 days)", birth_date, "OPV-0"),
   ("6 Weeks", birth_date + 7 * 6, "OPV-1 + IPV-1"),
   ("10 Weeks", birth_date + 7 * 10, "OPV-2"),
   ("14 Weeks", birth_date + 7 * 14, "OPV-3 + IPV-2"),
   ("16–24 Months", birth_date + 7 * 72, "OPV + IPV Boosters"),
   ("5 Years", birth_date + 7 * 260, "OPV Booster")]

/-! ## Per-user memory (app.py:292-356, in-process fallback backend)

The `DATABASE_URL`-absent path: `_in_memory_store` is a dict from user
id to a copy of the context dict.  Contexts are modelled by the record
the handlers build; `.copy()` is the identity on immutable values. -/

/-- One entry of `last_queries`.  The structured webhook stores a
`user_lang` key, the WhatsApp webhook does not (`none`). -/
structure QueryRecord where
  intent : String
  disease : String
  user_lang : Option String
  timestamp : String
deriving DecidableEq, Repr

/-- The per-user context dict. -/
structure UserContext where
  last_disease : String
  user_lang : String
  last_queries : List QueryRecord
deriving DecidableEq, Repr

/-- Stands for the `{}` a fresh user gets before `setdefault` runs; the
theorems never rely on its field values. -/
def UserContext.empty : UserContext :=
  { last_disease := "", user_lang := "en", last_queries := [] }

/-- Python dict assignment `d[k] = v` on an association list. -/
def dict_set : List (String × α) → String → α → List (String × α)
  | [], k, v => [(k, v)]
  | (k', v') :: rest, k, v =>
    if k' = k then (k, v) :: rest else (k', v') :: dict_set rest k v

/-- Function `save_user_memory` (app.py:339-356) on the in-process backend:
no-op for a falsy user id, else store a copy of the context. -/
def save_user_memory_mem (store : List (String × UserContext)) (user_id : String) (context : UserContext) : List (String × UserContext) :=
  if user_id = "" then store else dict_set store user_id context

/-- Function `get_user_memory` (app.py:324-337) on the in-process backend:
`{}` for a falsy user id or an unknown user, else a copy of the stored
context. -/
def get_user_memory_mem (store : List (String × UserContext)) (user_id : String) : UserContext :=
  if user_id = "" then UserContext.empty
  else (dict_get store user_id).getD UserContext.empty

/-- The query-log update of the structured webhook (app.py:396-402):
append the new record, then keep `[-5:]`. -/
def webhook_update_queries (qs : List QueryRecord) (q : QueryRecord) : List QueryRecord :=
  pyLastSlice 5 (qs ++ [q])

/-- The query-log update of the WhatsApp webhook (app.py:600-605):
identical append-then-`[-5:]`. -/
def whatsapp_update_queries (qs : List QueryRecord) (q : QueryRecord) : List QueryRecord :=
  pyLastSlice 5 (qs ++ [q])

/-! ## Language whitelist and webhook language handling -/

/-- app.py:23-25. -/
def INDIAN_LANGUAGES : List String :=
  ["hi", "te", "ta", "kn", "bn", "mr", "gu", "ml", "ur", "pa", "or", "ks"]

/-- The structured webhook's detected language (app.py:377-380):
`detect(disease_input)` when the input is non-empty (`detect_result` is
what the detector returns, `none` when it raises), else the remembered
language. -/
def webhook_detected_lang (disease_input : String) (detect_result : Option String) (memory_lang : String) : String :=
  if disease_input = "" then memory_lang
  else detect_result.getD memory_lang

/-- The structured webhook's `disease_param` / `user_lang` assignment
(app.py:383-389).  `translate` is whatever `translate_to_english`
returns; `or disease_input` re-reads the raw input when that is falsy. -/
def webhook_param_and_lang (translate : String → String → String)
    (disease_input : String) (detect_result : Option String)
    (memory_last : String) (memory_lang : String) : String × String :=
  let detected := webhook_detected_lang disease_input detect_result memory_lang
  if disease_input = "" then (memory_last, memory_lang)
  else
    (pyLower (pyStrip (let t := translate disease_input detected
                       if t = "" then disease_input else t)),
     if INDIAN_LANGUAGES.contains detected then detected else "en")

/-- The WhatsApp webhook's `user_lang` (app.py:579-584): detect on the
incoming message (empty modelling an absent `Body`), then always
normalize against the whitelist. -/
def whatsapp_user_lang (incoming_msg : String) (detect_result : Option String) (memory_lang : String) : String :=
  let detected := if incoming_msg = "" then memory_lang else detect_result.getD memory_lang
  if INDIAN_LANGUAGES.contains detected then detected else "en"

/-! ## Structured-webhook request guard (app.py:359-363) -/

/-- A parsed JSON value as Flask's `get_json(silent=True)` produces it. -/
inductive PyJson where
  | null : PyJson
  | bool : Bool → PyJson
  | num : Int → PyJson
  | str : String → PyJson
  | arr : List PyJson → PyJson
  | obj : List (String × PyJson) → PyJson

/-- Python truthiness of a parsed JSON value. -/
def pyTruthy : PyJson → Bool
  | .null => false
  | .bool b => b
  | .num n => n ≠ 0
  | .str s => s ≠ ""
  | .arr l => !l.isEmpty
  | .obj fields => !fields.isEmpty

/-- app.py:361-363: `req = request.get_json(silent=True)` (`none` when
the body is unparseable) followed by `if not req: return
jsonify({"fulfillmentText": "Invalid request"}), 400`.  Yields the
early status-400 response, or `none` when the handler proceeds. -/
def webhook_early_response (parsed : Option PyJson) : Option (Nat × String) :=
  match parsed with
  | none => some (400, "Invalid request")
  | some v => if pyTruthy v then none else some (400, "Invalid request")

/-! ## Claim theorems C4-C9 -/

theorem update_queries_spec (qs : List QueryRecord) (q : QueryRecord) :
    (pyLastSlice 5 (qs ++ [q])).length ≤ 5 ∧
    pyLastSlice 5 (qs ++ [q]) <:+ qs ++ [q] ∧
    (pyLastSlice 5 (qs ++ [q])).getLast? = some q ∧
    (qs.length = 5 → pyLastSlice 5 (qs ++ [q]) = qs.tail ++ [q]) := by
  have hk : (qs ++ [q]).length - 5 ≤ qs.length := by simp
  refine ⟨?_, List.drop_suffix _ _, ?_, ?_⟩
  · simp only [pyLastSlice, List.length_drop]
    omega
  · rw [pyLastSlice, List.drop_append_of_le_length hk, List.getLast?_concat]
  · intro h5
    rw [pyLastSlice, List.drop_append_of_le_length hk]
    have : (qs ++ [q]).length - 5 = 1 := by simp [h5]
    rw [this, List.drop_one]

/-- C4: in both webhook handlers, the query-log update (append then
`[-5:]`) leaves `last_queries` with at most 5 records, in append order
(the result is a suffix of the appended sequence, the new record last),
and appending to a log already holding 5 drops exactly the oldest
record. -/
theorem last_queries_invariant (qs : List QueryRecord) (q : QueryRecord) :
    ((webhook_update_queries qs q).length ≤ 5 ∧
     webhook_update_queries qs q <:+ qs ++ [q] ∧
     (webhook_update_queries qs q).getLast? = some q ∧
     (qs.length = 5 → webhook_update_queries qs q = qs.tail ++ [q])) ∧
    ((whatsapp_update_queries qs q).length ≤ 5 ∧
     whatsapp_update_queries qs q <:+ qs ++ [q] ∧
     (whatsapp_update_queries qs q).getLast? = some q ∧
     (qs.length = 5 → whatsapp_update_queries qs q = qs.tail ++ [q])) :=
  ⟨update_queries_spec qs q, update_queries_spec qs q⟩

/-- Witness for C4: appending a sixth record to a full log of five
drops the oldest one. -/
theorem last_queries_invariant_check :
    webhook_update_queries
      [⟨"i1", "d1", some "en", "t1"⟩, ⟨"i2", "d2", some "en", "t2"⟩,
       ⟨"i3", "d3", some "en", "t3"⟩, ⟨"i4", "d4", some "en", "t4"⟩,
       ⟨"i5", "d5", some "en", "t5"⟩] ⟨"i6", "d6", some "en", "t6"⟩
      = [⟨"i2", "d2", some "en", "t2"⟩, ⟨"i3", "d3", some "en", "t3"⟩,
         ⟨"i4", "d4", some "en", "t4"⟩, ⟨"i5", "d5", some "en", "t5"⟩,
         ⟨"i6", "d6", some "en", "t6"⟩] := by
  have h := (last_queries_invariant
    [⟨"i1", "d1", some "en", "t1"⟩, ⟨"i2", "d2", some "en", "t2"⟩,
     ⟨"i3", "d3", some "en", "t3"⟩, ⟨"i4", "d4", some "en", "t4"⟩,
     ⟨"i5", "d5", some "en", "t5"⟩] ⟨"i6", "d6", some "en", "t6"⟩).1.2.2.2 (by decide)
  exact h.trans (by decide)

/-- C5: the schedule builder returns exactly 6 entries in order, at the
birth date plus 0, 42, 70, 98, 504 and 1820 days (0, 6, 10, 14, 72 and
260 weeks); for birth date 2024-01-01 the "6 Weeks" entry falls on
2024-02-12. -/
theorem polio_schedule_spec (birth : Nat) :
    build_polio_schedule birth =
      [("At Birth (within 15 days)", birth, "OPV-0"),
       ("6 Weeks", birth + 42, "OPV-1 + IPV-1"),
       ("10 Weeks", birth + 70, "OPV-2"),
       ("14 Weeks", birth + 98, "OPV-3 + IPV-2"),
       ("16–24 Months", birth + 504, "OPV + IPV Boosters"),
       ("5 Years", birth + 1820, "OPV Booster")] ∧
    (build_polio_schedule birth).length = 6 ∧
    ((build_polio_schedule (toOrdinal 2024 1 1))[1]?).map (fun e => e.2.1)
      = some (toOrdinal 2024 2 12) :=
  ⟨rfl, rfl, by decide⟩

theorem normalize_whitelisted (detected : String) :
    ((if INDIAN_LANGUAGES.contains detected then detected else "en") = "en" ∨
     (if INDIAN_LANGUAGES.contains detected then detected else "en") ∈ INDIAN_LANGUAGES) ∧
    (detected ∉ INDIAN_LANGUAGES →
     (if INDIAN_LANGUAGES.contains detected then detected else "en") = "en") := by
  by_cases h : detected ∈ INDIAN_LANGUAGES
  · have hc : INDIAN_LANGUAGES.contains detected = true := by simpa using h
    exact ⟨Or.inr (by simp [hc, h]), fun hn => absurd h hn⟩
  · have hc : INDIAN_LANGUAGES.contains detected = false := by simpa using h
    exact ⟨Or.inl (by rw [hc]; rfl), fun _ => by rw [hc]; rfl⟩

/-- C6: in both handlers, and for every behavior of the translation
service, the `user_lang` written to memory is "en" or a whitelisted
Indian-language code, and whenever the detected language lies outside
the whitelist the stored value is "en".  (For the structured webhook
with an empty disease parameter the handler re-stores the remembered
language, so the previously stored value is assumed to satisfy the
invariant it itself maintains.) -/
theorem user_lang_whitelist (translate : String → String → String)
    (disease_input incoming_msg : String)
    (detect_result detect_result2 : Option String)
    (memory_last memory_lang : String)
    (hmem : memory_lang = "en" ∨ memory_lang ∈ INDIAN_LANGUAGES) :
    (((webhook_param_and_lang translate disease_input detect_result memory_last memory_lang).2 = "en" ∨
      (webhook_param_and_lang translate disease_input detect_result memory_last memory_lang).2 ∈ INDIAN_LANGUAGES) ∧
     (webhook_detected_lang disease_input detect_result memory_lang ∉ INDIAN_LANGUAGES →
      (webhook_param_and_lang translate disease_input detect_result memory_last memory_lang).2 = "en")) ∧
    ((whatsapp_user_lang incoming_msg detect_result2 memory_lang = "en" ∨
      whatsapp_user_lang incoming_msg detect_result2 memory_lang ∈ INDIAN_LANGUAGES) ∧
     ((if incoming_msg = "" then memory_lang else detect_result2.getD memory_lang) ∉ INDIAN_LANGUAGES →
      whatsapp_user_lang incoming_msg detect_result2 memory_lang = "en")) := by
  constructor
  · by_cases hdi : disease_input = ""
    · refine ⟨?_, ?_⟩
      · simpa [webhook_param_and_lang, hdi] using hmem
      · intro hout
        rw [webhook_detected_lang, if_pos hdi] at hout
        rcases hmem with h | h
        · simpa [webhook_param_and_lang, hdi] using h
        · exact absurd h hout
    · have h2 : (webhook_param_and_lang translate disease_input detect_result memory_last memory_lang).2
          = (if INDIAN_LANGUAGES.contains (webhook_detected_lang disease_input detect_result memory_lang)
             then webhook_detected_lang disease_input detect_result memory_lang else "en") := by
        simp [webhook_param_and_lang, hdi]
      rw [h2]
      exact ⟨(normalize_whitelisted _).1, (normalize_whitelisted _).2⟩
  · have h3 : whatsapp_user_lang incoming_msg detect_result2 memory_lang
        = (if INDIAN_LANGUAGES.contains (if incoming_msg = "" then memory_lang else detect_result2.getD memory_lang)
           then (if incoming_msg = "" then memory_lang else detect_result2.getD memory_lang) else "en") := rfl
    rw [h3]
    exact ⟨(normalize_whitelisted _).1, (normalize_whitelisted _).2⟩

/-- Witness for C6: a detected language outside the whitelist ("fr") is
stored as "en" in both handlers, whatever the translator does. -/
theorem user_lang_whitelist_check :
    (webhook_param_and_lang (fun s _ => s) "fever" (some "fr") "" "en").2 = "en" ∧
    whatsapp_user_lang "bonjour" (some "fr") "en" = "en" := by
  have h := user_lang_whitelist (fun s _ => s) "fever" "bonjour"
    (some "fr") (some "fr") "" "en" (Or.inl rfl)
  exact ⟨h.1.2 (by decide), h.2.2 (by decide)⟩

theorem dict_get_set (d : List (String × α)) (k : String) (v : α) :
    dict_get (dict_set d k v) k = some v := by
  induction d with
  | nil => simp [dict_set, dict_get]
  | cons kv rest ih =>
    by_cases hk : kv.1 = k
    · simp [dict_set, hk, dict_get]
    · simp only [dict_set]
      rw [if_neg hk]
      simp only [dict_get, List.find?]
      have : (kv.1 == k) = false := beq_false_of_ne hk
      rw [this]
      exact ih

/-- C7: on the in-process fallback backend, for every non-empty user id
and context, `put` followed by `get` returns a context equal to the one
stored. -/
theorem memory_roundtrip (store : List (String × UserContext))
    (user_id : String) (context : UserContext) (h : user_id ≠ "") :
    get_user_memory_mem (save_user_memory_mem store user_id context) user_id = context := by
  unfold get_user_memory_mem save_user_memory_mem
  rw [if_neg h, if_neg h, dict_get_set]
  rfl

/-- Witness for C7 at a concrete id and context. -/
theorem memory_roundtrip_check :
    get_user_memory_mem
      (save_user_memory_mem [] "whatsapp:+100" ⟨"flu", "hi", []⟩) "whatsapp:+100"
      = ⟨"flu", "hi", []⟩ :=
  memory_roundtrip [] "whatsapp:+100" ⟨"flu", "hi", []⟩ (by decide)

/-- C8: the slug resolver strips and lower-cases its input and performs
an exact lookup in the fetched mapping; whenever the fetch or parse
fails it behaves as the empty mapping, resolving every input to absent,
and (being a total function into `Option`) raises nothing to the
caller.  Inputs differing only up to that normalization resolve
identically. -/
theorem slug_resolver_spec :
    (∀ e param, get_slug (Except.error e) param = none) ∧
    (∀ m param, get_slug (Except.ok m) param
        = dict_get m (pyLower (pyStrip (param.getD "")))) ∧
    (∀ m s t, pyLower (pyStrip s) = pyLower (pyStrip t) →
        get_slug (Except.ok m) (some s) = get_slug (Except.ok m) (some t)) := by
  refine ⟨fun e param => rfl, fun m param => rfl, fun m s t h => ?_⟩
  simp [get_slug, h]

/-- Witness for C8: a padded upper-case query resolves like its
normal form, and a failed fetch resolves a known name to absent. -/
theorem slug_resolver_spec_check :
    get_slug (Except.ok [("malaria", "malaria")]) (some " MaLaRia ")
      = get_slug (Except.ok [("malaria", "malaria")]) (some "malaria") ∧
    get_slug (Except.error "timeout") (some "malaria") = none :=
  ⟨slug_resolver_spec.2.2 [("malaria", "malaria")] " MaLaRia " "malaria" (by decide),
   slug_resolver_spec.1 "timeout" (some "malaria")⟩

/-- Counterexample for C9 as stated: the empty JSON object is parseable
as a JSON object, yet the handler's `if not req` guard answers it with
the 400 "Invalid request" response; conversely a parseable truthy
non-object body (`[1]`) passes the guard without a 400. -/
theorem webhook_400_not_only_malformed :
    webhook_early_response (some (PyJson.obj [])) = some (400, "Invalid request") ∧
    webhook_early_response (some (PyJson.arr [PyJson.num 1])) = none :=
  ⟨rfl, rfl⟩

/-- C9 (amended): the structured webhook's early 400 "Invalid request"
response is produced exactly when the parsed body is absent (malformed)
or a falsy JSON value (null, false, 0, "", empty array, empty object);
in particular every malformed body receives it. -/
theorem webhook_guard_spec (parsed : Option PyJson) :
    (webhook_early_response parsed = some (400, "Invalid request") ↔
      pyTruthy (parsed.getD PyJson.null) = false) ∧
    webhook_early_response none = some (400, "Invalid request") := by
  refine ⟨?_, rfl⟩
  cases parsed with
  | none => simp [webhook_early_response, pyTruthy]
  | some v => by_cases h : pyTruthy v <;> simp [webhook_early_response, h]

/-- Witness for C9's amended characterization at a concrete falsy
body. -/
theorem webhook_guard_spec_check :
    webhook_early_response (some (PyJson.bool false)) = some (400, "Invalid request") :=
  (webhook_guard_spec (some (PyJson.bool false))).1.mpr rfl

end HealthBot
